import Mathlib

/-
  Verification of the CSV-to-measures transformation engine of
  `scripts/measures/2018/import-quality-measures.js`.

  The JavaScript is shallowly embedded: CSV rows are `List String`
  (an index past the end of a row is JavaScript `undefined`, hence
  `List.get?`), measures (JS objects) are insertion-ordered association
  lists from property name to `JSValue`, and thrown JS exceptions are
  the `JsError` type inside `Except`.
-/

/-- A performance-rate stratum `{name, description}` as pushed by
`addMultiPerformanceRateStrata`. -/
structure Stratum where
  name : String
  description : String
deriving Repr, DecidableEq

/-- The JavaScript values that occur as measure fields in the importer:
booleans, `null`, numbers (only whitelisted integer years occur),
strings, `undefined`, arrays of strings (submission methods, measure
sets) and arrays of strata. -/
inductive JSValue where
  | bool (b : Bool)
  | null
  | num (n : Int)
  | str (s : String)
  | undef
  | strArr (xs : List String)
  | strata (xs : List Stratum)
deriving Repr, DecidableEq

/-- JavaScript truthiness test used by `value || columnObject['default']`
and by `if (!measure.strata)`: `false`, `null`, `0`, `""` and
`undefined` are falsy; arrays are always truthy. -/
def JSValue.falsy : JSValue → Bool
  | .bool b => !b
  | .null => true
  | .num n => n == 0
  | .str s => s == ""
  | .undef => true
  | .strArr _ => false
  | .strata _ => false

/-- The whitespace characters stripped by JavaScript
`String.prototype.trim` (restricted to the ASCII ones that occur in
CSV exports). -/
def jsIsWhitespace (c : Char) : Bool :=
  c = ' ' || c = '\t' || c = '\n' || c = '\r' || c = '\x0b' || c = '\x0c'

/-- Embedding of JavaScript `String.prototype.trim`: drop whitespace
from both ends. -/
def jsTrim (s : String) : String :=
  ⟨((s.data.dropWhile jsIsWhitespace).reverse.dropWhile jsIsWhitespace).reverse⟩

/-- Embedding of JavaScript `String.prototype.toLowerCase` on the ASCII
range (the CSV cell vocabulary). -/
def jsLowerChar (c : Char) : Char :=
  if 65 ≤ c.toNat && c.toNat ≤ 90 then Char.ofNat (c.toNat + 32) else c

/-- Embedding of JavaScript `String.prototype.toLowerCase`. -/
def jsToLower (s : String) : String :=
  ⟨s.data.map jsLowerChar⟩

/-- `cleanInput` from the source: `input.trim().toLowerCase()`. -/
def cleanInput (input : String) : String :=
  jsToLower (jsTrim input)

/-- Value of a nonempty all-digit character list, `none` otherwise. -/
def digitsToNat? (l : List Char) : Option Nat :=
  if l ≠ [] && l.all (fun c => '0' ≤ c && c ≤ '9') then
    some (l.foldl (fun acc c => acc * 10 + (c.toNat - 48)) 0)
  else none

/-- Embedding of the JavaScript `Number()` conversion as applied to an
already trimmed string: the empty string converts to `0`, an optional
sign followed by decimal digits converts to that integer, and `none`
stands for every conversion result that cannot be a member of an
integer year whitelist (`NaN`, fractional values; exotic numeric
syntaxes such as hexadecimal are outside the modelled fragment). -/
def jsNumber (s : String) : Option Int :=
  match s.data with
  | [] => some 0
  | '+' :: rest => (digitsToNat? rest).map (fun n => (n : Int))
  | '-' :: rest => (digitsToNat? rest).map (fun n => -(n : Int))
  | l => (digitsToNat? l).map (fun n => (n : Int))

/-- `mapInput` from the source, parametrised by
`Constants.validPerformanceYears` (the whitelist lives in
`constants.js`, outside the transformation script; every theorem below
holds for an arbitrary whitelist). `Number(cleanedInput)` is `jsNumber`;
`includes(NaN)` is always false, which the `Option` models. -/
def mapInput (years : List Int) (input : String) : JSValue :=
  let cleanedInput := cleanInput input
  if cleanedInput = "true" ∨ cleanedInput = "x" then .bool true
  else if cleanedInput = "false" then .bool false
  else if cleanedInput = "null" ∨ cleanedInput = "n/a" then .null
  else
    match jsNumber cleanedInput with
    | some n => if n ∈ years then .num n else .str (jsTrim input)
    | none => .str (jsTrim input)

/-- Modelled from the spec: the Value Normalizer contract of spec §4.1,
written out rule by rule — trim, then compare case-insensitively:
`"true"`/`"x"` give true, `"false"` gives false, `"null"`/`"n/a"` give
null, a whitelisted year parses to that number, and everything else is
the original value trimmed with case preserved. -/
def normalizeSpec (years : List Int) (raw : String) : JSValue :=
  let t := jsTrim raw
  let c := jsToLower t
  if c = "true" ∨ c = "x" then .bool true
  else if c = "false" then .bool false
  else if c = "null" ∨ c = "n/a" then .null
  else
    match jsNumber c with
    | some n => if n ∈ years then .num n else .str t
    | none => .str t

/-- The exceptions the importer can throw, one constructor per throw
site / JS error class:
* `missingColumn` — `Error('Column ' + c + ' does not exist in source data')`;
* `undefinedTrim` — the `TypeError` raised by calling `.trim()` on an
  `undefined` cell (`cleanInput` of a column index past the end of a row);
* `measureNotFound` — `TypeError('Measure id: ...')` from
  `addMultiPerformanceRateStrata`, carrying the unmatched id and the two
  CSV paths;
* `pushOnNonArray` — the `TypeError` raised by `.push` when a truthy
  non-array sits in `measure.strata`. -/
inductive JsError where
  | missingColumn (idx : Nat)
  | undefinedTrim
  | measureNotFound (mid qPath sPath : String)
  | pushOnNonArray
deriving Repr, DecidableEq

instance {ε α : Type} [DecidableEq ε] [DecidableEq α] : DecidableEq (Except ε α) :=
  fun x y =>
    match x, y with
    | .ok a, .ok b =>
        if h : a = b then .isTrue (by rw [h]) else .isFalse (by simp [h])
    | .error a, .error b =>
        if h : a = b then .isTrue (by rw [h]) else .isFalse (by simp [h])
    | .ok _, .error _ => .isFalse (by simp)
    | .error _, .ok _ => .isFalse (by simp)

/-- The `message` text of each thrown error, as built in the source. -/
def renderError : JsError → String
  | .missingColumn idx => "Column " ++ toString idx ++ " does not exist in source data"
  | .undefinedTrim => "TypeError: Cannot read properties of undefined (reading trim)"
  | .measureNotFound mid qPath sPath =>
      "Measure id: " ++ mid ++ " does not exist in " ++ qPath ++
        " but does exist in " ++ sPath
  | .pushOnNonArray => "TypeError: push is not a function"

/-- A measure object: JS object as insertion-ordered association list. -/
abbrev Measure : Type := List (String × JSValue)

/-- JS property write `m[k] = v`: overwrite in place if the key exists,
otherwise append (JS property insertion order). -/
def setKey : Measure → String → JSValue → Measure
  | [], k, v => [(k, v)]
  | (k', v') :: rest, k, v =>
      if k' = k then (k, v) :: rest else (k', v') :: setKey rest k v

/-- JS property read `m[k]`, `none` for `undefined`. -/
def getKey : Measure → String → Option JSValue
  | [], _ => none
  | (k', v') :: rest, k => if k' = k then some v' else getKey rest k

/-- JS property read on a string-valued translation table
(`columnObject.mappings[input]`), `none` for `undefined`. -/
def lookupTable (table : List (String × String)) (k : String) : Option String :=
  (table.find? (fun p => p.1 = k)).map (fun p => p.2)

/-- One entry of `CONFIG.sourced_fields`: either a bare column number
(`typeof columnObject === 'number'`) or an object with an `index`, an
optional `mappings` translation table and a `default` (`JSValue.undef`
when the config object has no `default` key, as for `measureType`). -/
inductive ColumnSpec where
  | direct (idx : Nat)
  | obj (idx : Nat) (mappings : Option (List (String × String))) (dflt : JSValue)
deriving Repr, DecidableEq

/-- The body of the `Object.entries(sourcedFields).forEach` callback in
`convertQualityStrataCsvsToMeasures`, for one `(measureKey, columnObject)`
entry: the direct-number branch checks `_.isUndefined(input)` and throws
the missing-column `Error`, skips the assignment when the cell is the
empty string, and otherwise assigns `mapInput(input)`; the object branch
evaluates `cleanInput`/`mapInput` on `row[columnObject.index]` (throwing
the `undefined.trim()` `TypeError` when the cell is past the end of the
row) and assigns `value || columnObject['default']`. -/
def applyField (years : List Int) (row : List String) (m : Measure)
    (key : String) : ColumnSpec → Except JsError Measure
  | .direct idx =>
      match row.get? idx with
      | none => .error (.missingColumn idx)
      | some input =>
          if input = "" then .ok m
          else .ok (setKey m key (mapInput years input))
  | .obj idx mappings dflt =>
      match mappings with
      | some table =>
          match row.get? idx with
          | none => .error .undefinedTrim
          | some input =>
              let value :=
                match lookupTable table (cleanInput input) with
                | some s => JSValue.str s
                | none => JSValue.undef
              .ok (setKey m key (if value.falsy then dflt else value))
      | none =>
          match row.get? idx with
          | none => .error .undefinedTrim
          | some input =>
              let value := mapInput years input
              .ok (setKey m key (if value.falsy then dflt else value))

/-- The full `Object.entries(sourcedFields).forEach` loop: entries are
processed in declaration order and the first thrown error aborts the
construction of the measure. -/
def buildSourcedFields (years : List Int) (row : List String) :
    Measure → List (String × ColumnSpec) → Except JsError Measure
  | m, [] => .ok m
  | m, (key, spec) :: rest =>
      match applyField years row m key spec with
      | .error e => .error e
      | .ok m' => buildSourcedFields years row m' rest

/-- `CONFIG.constant_fields`. -/
def CONFIG_constant_fields : List (String × JSValue) :=
  [("category", .str "quality"),
   ("isRegistryMeasure", .bool false),
   ("isRiskAdjusted", .bool false)]

/-- The `Object.entries(constantFields).forEach` loop. -/
def applyConstants (m : Measure) : Measure :=
  CONFIG_constant_fields.foldl (fun m kv => setKey m kv.1 kv.2) m

/-- `CONFIG.sourced_fields.measureType.mappings`. -/
def measureTypeMappings : List (String × String) :=
  [("process", "process"),
   ("outcome", "outcome"),
   ("patient engagement/experience", "patientEngagementExperience"),
   ("efficiency", "efficiency"),
   ("intermediate outcome", "intermediateOutcome"),
   ("structure", "structure"),
   ("patient reported outcome", "outcome"),
   ("composite", "outcome"),
   ("cost/resource use", "efficiency"),
   ("clinical process effectiveness", "process")]

/-- `CONFIG.sourced_fields`, in declaration order (`Object.entries`
preserves it: no key is integer-like). -/
def CONFIG_sourced_fields : List (String × ColumnSpec) :=
  [("title", .direct 1),
   ("eMeasureId", .direct 2),
   ("nqfEMeasureId", .direct 3),
   ("nqfId", .direct 4),
   ("measureId", .direct 5),
   ("description", .direct 6),
   ("nationalQualityStrategyDomain", .direct 7),
   ("measureType", .obj 8 (some measureTypeMappings) .undef),
   ("primarySteward", .direct 9),
   ("metricType", .direct 51),
   ("firstPerformanceYear", .obj 52 none (.num 2017)),
   ("lastPerformanceYear", .obj 53 none .null),
   ("isHighPriority", .obj 55 none (.bool false)),
   ("isInverse", .obj 56 none (.bool false)),
   ("overallAlgorithm", .direct 60)]

/-- `SUBMISSION_METHODS`: column number to submission method (lodash
`_.each` visits the integer-like keys in ascending order, which is also
declaration order). -/
def SUBMISSION_METHODS : List (Nat × String) :=
  [(10, "claims"),
   (11, "certifiedSurveyVendor"),
   (12, "electronicHealthRecord"),
   (13, "cmsWebInterface"),
   (14, "administrativeClaims"),
   (15, "registry")]

/-- `MEASURE_SETS`: column number to measure set. -/
def MEASURE_SETS : List (Nat × String) :=
  [(16, "allergyImmunology"),
   (17, "anesthesiology"),
   (18, "cardiology"),
   (19, "dermatology"),
   (20, "diagnosticRadiology"),
   (21, "electrophysiologyCardiacSpecialist"),
   (22, "emergencyMedicine"),
   (23, "gastroenterology"),
   (24, "generalOncology"),
   (25, "generalPracticeFamilyMedicine"),
   (26, "generalSurgery"),
   (27, "hospitalists"),
   (28, "internalMedicine"),
   (29, "interventionalRadiology"),
   (30, "mentalBehavioralHealth"),
   (31, "neurology"),
   (32, "obstetricsGynecology"),
   (33, "ophthalmology"),
   (34, "orthopedicSurgery"),
   (35, "otolaryngology"),
   (36, "pathology"),
   (37, "pediatrics"),
   (38, "physicalMedicine"),
   (39, "plasticSurgery"),
   (40, "preventiveMedicine"),
   (41, "radiationOncology"),
   (42, "rheumatology"),
   (43, "thoracicSurgery"),
   (44, "urology"),
   (45, "vascularSurgery")]

/-- `getCheckedColumns` from the source: walk the column map in order
and collect the labels whose cell satisfies `mapInput(row[key]) === true`.
A cell past the end of the row is `undefined`, so `mapInput` raises the
`undefined.trim()` `TypeError`. -/
def getCheckedColumns (years : List Int) (row : List String) :
    List (Nat × String) → Except JsError (List String)
  | [] => .ok []
  | (idx, name) :: rest =>
      match row.get? idx with
      | none => .error .undefinedTrim
      | some input =>
          match getCheckedColumns years row rest with
          | .error e => .error e
          | .ok tail =>
              if mapInput years input = .bool true then .ok (name :: tail)
              else .ok tail

/-- The per-row callback of `qualityCsvRows.map` in
`convertQualityStrataCsvsToMeasures`: sourced fields, then constant
fields, then the two flag aggregations. -/
def buildMeasure (years : List Int) (fields : List (String × ColumnSpec))
    (row : List String) : Except JsError Measure := do
  let m ← buildSourcedFields years row [] fields
  let m := applyConstants m
  let sm ← getCheckedColumns years row SUBMISSION_METHODS
  let ms ← getCheckedColumns years row MEASURE_SETS
  pure (setKey (setKey m "submissionMethods" (.strArr sm)) "measureSets" (.strArr ms))

/-- `_.find(measures, {'measureId': measureId})` match test for one
measure: lodash compares `measure['measureId']` structurally with the
string `measureId`. -/
def isMatch (m : Measure) (mid : String) : Bool :=
  getKey m "measureId" = some (JSValue.str mid)

/-- The strata-push block of `addMultiPerformanceRateStrata`:
`if (!measure.strata) measure.strata = []; measure.strata.push(...)`.
An absent or falsy `strata` property is (re)initialised to `[]`; a
truthy non-array would make `.push` throw. -/
def pushStratum (m : Measure) (st : Stratum) : Except JsError Measure :=
  match getKey m "strata" with
  | none => .ok (setKey m "strata" (.strata [st]))
  | some (.strata xs) => .ok (setKey m "strata" (.strata (xs ++ [st])))
  | some v =>
      if v.falsy then .ok (setKey m "strata" (.strata [st]))
      else .error .pushOnNonArray

/-- `_.find` over the measure list followed by the push: the first
measure whose `measureId` equals `mid` receives the stratum; if none
matches, the `TypeError('Measure id: ...')` is thrown with both CSV
paths. -/
def attachStratum (qPath sPath : String) (mid : String) (st : Stratum) :
    List Measure → Except JsError (List Measure)
  | [] => .error (.measureNotFound mid qPath sPath)
  | m :: rest =>
      if isMatch m mid then
        match pushStratum m st with
        | .error e => .error e
        | .ok m' => .ok (m' :: rest)
      else
        match attachStratum qPath sPath mid st rest with
        | .error e => .error e
        | .ok rest' => .ok (m :: rest')

/-- The body of the `_.each(strataRows, ...)` callback: skip the row
when `row[0]` is falsy (`undefined` or `""`), otherwise trim the id
(column 0), the stratum name (column 1) and the description (column 3)
— a missing column 1 or 3 raises the `undefined.trim()` `TypeError`
before the lookup — and attach the stratum. -/
def addStrataRow (qPath sPath : String) (measures : List Measure)
    (row : List String) : Except JsError (List Measure) :=
  match row.get? 0 with
  | none => .ok measures
  | some c0 =>
      if c0 = "" then .ok measures
      else
        match row.get? 1 with
        | none => .error .undefinedTrim
        | some c1 =>
            match row.get? 3 with
            | none => .error .undefinedTrim
            | some c3 =>
                attachStratum qPath sPath (jsTrim c0)
                  ⟨jsTrim c1, jsTrim c3⟩ measures

/-- `addMultiPerformanceRateStrata` from the source: fold the strata
rows over the measure list; the first thrown error aborts the run. -/
def addMultiPerformanceRateStrata (qPath sPath : String)
    (measures : List Measure) : List (List String) → Except JsError (List Measure)
  | [] => .ok measures
  | row :: rest =>
      match addStrataRow qPath sPath measures row with
      | .error e => .error e
      | .ok measures' => addMultiPerformanceRateStrata qPath sPath measures' rest

/-- `convertQualityStrataCsvsToMeasures` from the source: build one
measure per quality row (the first exception aborts the whole `map`),
then merge the strata rows. -/
def convertQualityStrataCsvsToMeasures (years : List Int)
    (qPath sPath : String) (qualityCsvRows strataCsvRows : List (List String)) :
    Except JsError (List Measure) := do
  let measures ← qualityCsvRows.mapM (buildMeasure years CONFIG_sourced_fields)
  addMultiPerformanceRateStrata qPath sPath measures strataCsvRows

/-- A 61-cell quality row used to evaluate the builder concretely:
every cell is `"v"` except cell 1 (the `title` column), which is the
empty string. -/
def exampleQualityRow : List String :=
  "v" :: "" :: List.replicate 59 "v"

/-- The measure built from `exampleQualityRow` (its evaluated form). -/
def exampleQualityMeasure : Measure :=
  match buildMeasure [2017] CONFIG_sourced_fields exampleQualityRow with
  | .ok m => m
  | .error _ => []

theorem getKey_setKey_ne (m : Measure) (k key : String) (v : JSValue)
    (h : k ≠ key) : getKey (setKey m k v) key = getKey m key := by
  induction m with
  | nil => simp [setKey, getKey, h]
  | cons p rest ih =>
      obtain ⟨k', v'⟩ := p
      by_cases hk : k' = k
      · subst hk
        simp [setKey, getKey, h]
      · by_cases hk2 : k' = key
        · subst hk2
          simp [setKey, getKey, hk, Ne.symm h]
        · simp [setKey, getKey, hk, hk2, ih]

theorem applyField_ok_cases (years : List Int) (row : List String)
    (m : Measure) (key : String) (spec : ColumnSpec) (m₁ : Measure)
    (h : applyField years row m key spec = .ok m₁) :
    m₁ = m ∨ ∃ v, m₁ = setKey m key v := by
  cases spec with
  | direct idx =>
      simp only [applyField] at h
      split at h
      · exact absurd h (by simp)
      · split at h
        · exact Or.inl (Except.ok.inj h).symm
        · exact Or.inr ⟨_, (Except.ok.inj h).symm⟩
  | obj idx mappings dflt =>
      simp only [applyField] at h
      split at h
      · split at h
        · exact absurd h (by simp)
        · exact Or.inr ⟨_, (Except.ok.inj h).symm⟩
      · split at h
        · exact absurd h (by simp)
        · exact Or.inr ⟨_, (Except.ok.inj h).symm⟩

theorem getKey_applyField_ne (years : List Int) (row : List String)
    (m : Measure) (k other : String) (spec : ColumnSpec) (m₁ : Measure)
    (h : applyField years row m k spec = .ok m₁) (hne : k ≠ other)
    (h0 : getKey m other = none) : getKey m₁ other = none := by
  rcases applyField_ok_cases years row m k spec m₁ h with rfl | ⟨v, rfl⟩
  · exact h0
  · rw [getKey_setKey_ne m k other v hne]
    exact h0

theorem getKey_buildSourcedFields_none (years : List Int) (row : List String)
    (key : String) :
    ∀ (fields : List (String × ColumnSpec)) (m m' : Measure),
      buildSourcedFields years row m fields = .ok m' →
      getKey m key = none →
      (∀ p ∈ fields, p.1 = key →
        ∃ i, p.2 = ColumnSpec.direct i ∧ row.get? i = some "") →
      getKey m' key = none := by
  intro fields
  induction fields with
  | nil =>
      intro m m' h h0 _
      simp only [buildSourcedFields] at h
      cases h
      exact h0
  | cons p rest ih =>
      obtain ⟨k', s'⟩ := p
      intro m m' h h0 hspec
      simp only [buildSourcedFields] at h
      cases ha : applyField years row m k' s' with
      | error e =>
          rw [ha] at h
          exact absurd h (by simp)
      | ok m₁ =>
          rw [ha] at h
          refine ih m₁ m' h ?_ (fun p hp hpk => hspec p (List.mem_cons_of_mem _ hp) hpk)
          by_cases hk : k' = key
          · subst hk
            obtain ⟨i, rfl, hcell⟩ := hspec (k', s') (List.mem_cons_self _ _) rfl
            have hm : m₁ = m := by
              simp only [applyField] at ha
              rw [hcell] at ha
              simp at ha
              exact ha.symm
            exact hm ▸ h0
          · exact getKey_applyField_ne years row m k' key s' m₁ ha hk h0

theorem getKey_applyConstants_ne (m : Measure) (key : String)
    (h1 : key ≠ "category") (h2 : key ≠ "isRegistryMeasure")
    (h3 : key ≠ "isRiskAdjusted") :
    getKey (applyConstants m) key = getKey m key := by
  show getKey (setKey (setKey (setKey m "category" (.str "quality"))
    "isRegistryMeasure" (.bool false)) "isRiskAdjusted" (.bool false)) key = getKey m key
  rw [getKey_setKey_ne _ _ _ _ (fun h => h3 h.symm),
      getKey_setKey_ne _ _ _ _ (fun h => h2 h.symm),
      getKey_setKey_ne _ _ _ _ (fun h => h1 h.symm)]

theorem buildSourcedFields_error_of_missing (years : List Int) (row : List String) :
    ∀ (fields : List (String × ColumnSpec)) (key : String) (idx : Nat),
      (key, ColumnSpec.direct idx) ∈ fields → row.get? idx = none →
      ∀ m, ∃ e, buildSourcedFields years row m fields = .error e := by
  intro fields
  induction fields with
  | nil =>
      intro key idx h
      cases h
  | cons p rest ih =>
      intro key idx hmem hrow m
      obtain ⟨k', s'⟩ := p
      cases hm : applyField years row m k' s' with
      | error e =>
          refine ⟨e, ?_⟩
          simp only [buildSourcedFields, hm]
      | ok m₁ =>
          rcases List.mem_cons.mp hmem with heq | hrest
          · injection heq with hk hs
            rw [← hk, ← hs] at hm
            simp only [applyField] at hm
            rw [hrow] at hm
            exact absurd hm (by simp)
          · obtain ⟨e, he⟩ := ih key idx hrest hrow m₁
            refine ⟨e, ?_⟩
            simp only [buildSourcedFields, hm]
            exact he

theorem buildMeasure_error_of_sourced (years : List Int)
    (fields : List (String × ColumnSpec)) (row : List String) (e : JsError)
    (h : buildSourcedFields years row [] fields = .error e) :
    buildMeasure years fields row = .error e := by
  simp only [buildMeasure, bind, Except.bind, h]

/-- Claim C1: the Value Normalizer (`mapInput`) first trims and
lowercases the raw cell; `"true"`/`"x"` give boolean true, `"false"`
gives boolean false, `"null"`/`"n/a"` give null, a value parsing to a
whitelisted performance year gives that number, and anything else gives
the original value trimmed with case preserved — i.e. `mapInput`
coincides with the spec-side normalizer `normalizeSpec` for every
whitelist and every raw cell string. -/
theorem mapInput_matches_spec_normalizer :
    ∀ (years : List Int) (raw : String), mapInput years raw = normalizeSpec years raw :=
  fun _ _ => rfl

/-- Claim C2: for every row and direct-column-index mapping entry whose
cell `row[index]` is undefined (row too short), the resolver fails with
the `Error` naming that column index — its message is
`'Column <index> does not exist in source data'` — the whole sourced-field
loop aborts, and no measure is produced for that row. -/
theorem missing_direct_column_fails :
    ∀ (years : List Int) (row : List String) (fields : List (String × ColumnSpec))
      (key : String) (idx : Nat) (m₀ : Measure),
      (key, ColumnSpec.direct idx) ∈ fields →
      row.get? idx = none →
      applyField years row m₀ key (ColumnSpec.direct idx) = .error (.missingColumn idx)
      ∧ renderError (.missingColumn idx) =
          "Column " ++ toString idx ++ " does not exist in source data"
      ∧ (∃ e, buildSourcedFields years row m₀ fields = .error e)
      ∧ (∃ e, buildMeasure years fields row = .error e) := by
  intro years row fields key idx m₀ hmem hrow
  refine ⟨?_, rfl, ?_, ?_⟩
  · simp only [applyField, hrow]
  · exact buildSourcedFields_error_of_missing years row fields key idx hmem hrow m₀
  · obtain ⟨e, he⟩ := buildSourcedFields_error_of_missing years row fields key idx hmem hrow []
    exact ⟨e, buildMeasure_error_of_sourced years fields row e he⟩

theorem missing_direct_column_fails_witness :
    applyField [2017] [] [] "title" (ColumnSpec.direct 1) =
      .error (.missingColumn 1) ∧
    (∃ e, buildMeasure [2017] CONFIG_sourced_fields [] = .error e) := by
  have h := missing_direct_column_fails [2017] [] CONFIG_sourced_fields "title" 1 []
    (by decide) rfl
  exact ⟨h.1, h.2.2.2⟩

/-- Claim C3: for every row and direct-column-index entry whose cell is
present and equal to the empty string (and whose field name is mapped
only by that entry and is not one of the constant or aggregate field
names), the built measure omits the field key entirely. -/
theorem empty_direct_cell_omits_field :
    ∀ (years : List Int) (fields : List (String × ColumnSpec)) (row : List String)
      (key : String) (idx : Nat) (m : Measure),
      (key, ColumnSpec.direct idx) ∈ fields →
      row.get? idx = some "" →
      (∀ p ∈ fields, p.1 = key → p.2 = ColumnSpec.direct idx) →
      key ∉ (["category", "isRegistryMeasure", "isRiskAdjusted",
              "submissionMethods", "measureSets"] : List String) →
      buildMeasure years fields row = .ok m →
      getKey m key = none := by
  intro years fields row key idx m _ hcell huniq hkeys hbuild
  have h1 : key ≠ "category" := fun hx => hkeys (by simp [hx])
  have h2 : key ≠ "isRegistryMeasure" := fun hx => hkeys (by simp [hx])
  have h3 : key ≠ "isRiskAdjusted" := fun hx => hkeys (by simp [hx])
  have h4 : key ≠ "submissionMethods" := fun hx => hkeys (by simp [hx])
  have h5 : key ≠ "measureSets" := fun hx => hkeys (by simp [hx])
  simp only [buildMeasure, bind, Except.bind] at hbuild
  cases hs : buildSourcedFields years row [] fields with
  | error e => rw [hs] at hbuild; exact absurd hbuild (by simp)
  | ok m1 =>
      simp only [hs] at hbuild
      cases hsm : getCheckedColumns years row SUBMISSION_METHODS with
      | error e => rw [hsm] at hbuild; exact absurd hbuild (by simp)
      | ok sm =>
          simp only [hsm] at hbuild
          cases hms : getCheckedColumns years row MEASURE_SETS with
          | error e => rw [hms] at hbuild; exact absurd hbuild (by simp)
          | ok ms =>
              simp only [hms, pure, Except.pure] at hbuild
              injection hbuild with hm
              subst hm
              rw [getKey_setKey_ne _ _ _ _ (fun h => h5 h.symm),
                  getKey_setKey_ne _ _ _ _ (fun h => h4 h.symm),
                  getKey_applyConstants_ne _ _ h1 h2 h3]
              exact getKey_buildSourcedFields_none years row key fields [] m1 hs rfl
                (fun p hp hpk => ⟨idx, huniq p hp hpk, hcell⟩)

theorem empty_direct_cell_omits_field_witness :
    buildMeasure [2017] CONFIG_sourced_fields exampleQualityRow =
      .ok exampleQualityMeasure ∧
    getKey exampleQualityMeasure "title" = none := by
  have hb : buildMeasure [2017] CONFIG_sourced_fields exampleQualityRow =
      .ok exampleQualityMeasure := by decide
  exact ⟨hb, empty_direct_cell_omits_field [2017] CONFIG_sourced_fields
    exampleQualityRow "title" 1 exampleQualityMeasure (by decide) (by decide)
    (by decide) (by decide) hb⟩

/-- Claim C5: for every mapping entry with an index and a default but no
translation table, a cell whose normalized value is falsy (`false`, `0`,
`null` or the empty string) is replaced by the configured default — a
legitimately normalized `false` or `0` is indistinguishable from an
absent value and is overwritten. -/
theorem falsy_value_replaced_by_default :
    ∀ (years : List Int) (row : List String) (idx : Nat) (dflt : JSValue)
      (m : Measure) (key : String) (input : String),
      row.get? idx = some input →
      (mapInput years input).falsy = true →
      applyField years row m key (ColumnSpec.obj idx none dflt) =
        .ok (setKey m key dflt) := by
  intro years row idx dflt m key input hrow hfalsy
  simp only [applyField, hrow, hfalsy, if_pos]

theorem falsy_value_replaced_by_default_witness :
    mapInput [2017] "false" = JSValue.bool false ∧
    applyField [2017] ["false"] [] "isHighPriority" (ColumnSpec.obj 0 none (.bool false)) =
      .ok [("isHighPriority", JSValue.bool false)] := by
  refine ⟨by decide, ?_⟩
  exact falsy_value_replaced_by_default [2017] ["false"] 0 (.bool false) []
    "isHighPriority" "false" rfl (by decide)

/-- Claim C6: for every mapping entry with a translation table, the raw
cell is trimmed and lowercased (`cleanInput`) before the table lookup —
the lookup is case-insensitive in the raw cell, the table keys being
pre-lowercased — and a cell missing from the table falls back to the
entry's configured default (which may be null); a found non-empty
translation is assigned as a string. -/
theorem translation_table_lookup :
    ∀ (years : List Int) (row : List String) (idx : Nat)
      (table : List (String × String)) (dflt : JSValue)
      (m : Measure) (key : String) (input : String),
      row.get? idx = some input →
      (lookupTable table (cleanInput input) = none →
        applyField years row m key (ColumnSpec.obj idx (some table) dflt) =
          .ok (setKey m key dflt))
      ∧ (∀ s, lookupTable table (cleanInput input) = some s → s ≠ "" →
        applyField years row m key (ColumnSpec.obj idx (some table) dflt) =
          .ok (setKey m key (.str s))) := by
  intro years row idx table dflt m key input hrow
  constructor
  · intro hmiss
    simp only [applyField, hrow, hmiss, JSValue.falsy, if_pos]
  · intro s hfound hs
    simp only [applyField, hrow, hfound, JSValue.falsy]
    rw [if_neg]
    simp only [beq_iff_eq]
    exact hs

theorem translation_table_lookup_witness :
    cleanInput " Process " = "process" ∧
    applyField [2017] [" Process "] [] "measureType"
      (ColumnSpec.obj 0 (some measureTypeMappings) .undef) =
      .ok [("measureType", JSValue.str "process")] := by
  refine ⟨by decide, ?_⟩
  exact (translation_table_lookup [2017] [" Process "] 0 measureTypeMappings .undef
    [] "measureType" " Process " rfl).2 "process" (by decide) (by decide)

/-- Claim C10: for every mapping entry that is not a direct column
index (one with a translation table or a configured default), a row too
short for the entry's index makes the resolver throw the unguarded
`TypeError` from calling `trim` on `undefined` — it neither raises the
named missing-source-column `Error` nor substitutes the default; the
undefined-cell guard applies only to direct-index entries. -/
theorem obj_entry_missing_cell_type_error :
    ∀ (years : List Int) (row : List String) (idx : Nat)
      (mappings : Option (List (String × String))) (dflt : JSValue)
      (m : Measure) (key : String),
      row.get? idx = none →
      applyField years row m key (ColumnSpec.obj idx mappings dflt) =
        .error .undefinedTrim
      ∧ JsError.undefinedTrim ≠ JsError.missingColumn idx
      ∧ (∀ m', applyField years row m key (ColumnSpec.obj idx mappings dflt) ≠ .ok m') := by
  intro years row idx mappings dflt m key hrow
  have hmain : applyField years row m key (ColumnSpec.obj idx mappings dflt) =
      .error .undefinedTrim := by
    cases mappings with
    | none => simp only [applyField, hrow]
    | some table => simp only [applyField, hrow]
  refine ⟨hmain, by simp, ?_⟩
  intro m' hok
  rw [hmain] at hok
  exact absurd hok (by simp)

theorem obj_entry_missing_cell_type_error_witness :
    applyField [2017] [] [] "firstPerformanceYear"
      (ColumnSpec.obj 52 none (.num 2017)) = .error .undefinedTrim ∧
    renderError .undefinedTrim =
      "TypeError: Cannot read properties of undefined (reading trim)" := by
  exact ⟨(obj_entry_missing_cell_type_error [2017] [] 52 none (.num 2017) []
    "firstPerformanceYear" rfl).1, rfl⟩

/-- Claim C4 counterexample: the Multi-Column Flag Aggregator does fail
on a missing column — on the empty row (every submission-method column
absent) `getCheckedColumns` throws the `undefined.trim()` `TypeError`
instead of returning the empty label list the claim predicts. -/
theorem flag_aggregator_missing_column_cex :
    getCheckedColumns [2017] [] SUBMISSION_METHODS = .error .undefinedTrim ∧
    getCheckedColumns [2017] [] SUBMISSION_METHODS ≠ .ok [] := by decide

/-- Claim C4 (amended): an entry whose column index is absent from the
row makes the Multi-Column Flag Aggregator fail with the `TypeError`
from trimming the undefined cell — the entry is not treated as
not-true and no label list is returned. -/
theorem flag_aggregator_missing_column_errors :
    ∀ (years : List Int) (row : List String) (spec : List (Nat × String)),
      (∃ p ∈ spec, row.get? p.1 = none) →
      getCheckedColumns years row spec = .error .undefinedTrim := by
  intro years row spec
  induction spec with
  | nil =>
      rintro ⟨p, hp, _⟩
      cases hp
  | cons q rest ih =>
      rintro ⟨p, hp, hcell⟩
      obtain ⟨idx, name⟩ := q
      cases hr : row.get? idx with
      | none => simp only [getCheckedColumns, hr]
      | some c =>
          rcases List.mem_cons.mp hp with rfl | hrest
          · simp only at hcell
            rw [hr] at hcell
            cases hcell
          · have hrec := ih ⟨p, hrest, hcell⟩
            simp only [getCheckedColumns, hr, hrec]

theorem flag_aggregator_missing_column_errors_witness :
    getCheckedColumns [2017] ["a"] SUBMISSION_METHODS = .error .undefinedTrim :=
  flag_aggregator_missing_column_errors [2017] ["a"] SUBMISSION_METHODS
    ⟨(10, "claims"), by decide, rfl⟩

/-- Claim C9 counterexample: on a row missing the specified columns the
aggregator does not return the (empty) label list the claim predicts
for it — it throws instead. -/
theorem flag_aggregator_short_row_cex :
    getCheckedColumns [2017] [] [(10, "a"), (11, "b"), (12, "c")] =
      .error .undefinedTrim ∧
    getCheckedColumns [2017] [] [(10, "a"), (11, "b"), (12, "c")] ≠ .ok [] := by
  decide

/-- Claim C9 (amended): for every flag-column specification and every
row in which each specified column is present, the aggregator returns
exactly the labels of the entries whose normalized cell is boolean
true, in the specification's declared entry order (possibly the empty
list). -/
theorem flag_aggregator_collects_true_labels :
    ∀ (years : List Int) (row : List String) (spec : List (Nat × String)),
      (∀ p ∈ spec, (row.get? p.1).isSome = true) →
      getCheckedColumns years row spec =
        .ok ((spec.filter (fun p =>
          decide (mapInput years ((row.get? p.1).getD "") = JSValue.bool true))).map
            Prod.snd) := by
  intro years row spec
  induction spec with
  | nil => intro _; rfl
  | cons q rest ih =>
      intro h
      obtain ⟨idx, name⟩ := q
      obtain ⟨c, hc⟩ := Option.isSome_iff_exists.mp (h (idx, name) (List.mem_cons_self _ _))
      have hrest := ih (fun p hp => h p (List.mem_cons_of_mem _ hp))
      by_cases ht : mapInput years c = JSValue.bool true
      · simp only [getCheckedColumns, hc, hrest, List.filter, ht]
        simp [hc, ht]
      · simp only [getCheckedColumns, hc, hrest, List.filter, ht]
        simp [hc, ht]

theorem flag_aggregator_collects_true_labels_witness :
    getCheckedColumns [2017]
      ["", "", "", "", "", "", "", "", "", "", "no", "X", "true"]
      [(10, "a"), (11, "b"), (12, "c")] = .ok ["b", "c"] := by
  have h := flag_aggregator_collects_true_labels [2017]
    ["", "", "", "", "", "", "", "", "", "", "no", "X", "true"]
    [(10, "a"), (11, "b"), (12, "c")] (by decide)
  rw [h]
  decide

theorem attachStratum_of_no_match (qPath sPath mid : String) (st : Stratum) :
    ∀ measures, (∀ m ∈ measures, isMatch m mid = false) →
      attachStratum qPath sPath mid st measures =
        .error (.measureNotFound mid qPath sPath) := by
  intro measures
  induction measures with
  | nil => intro _; rfl
  | cons m rest ih =>
      intro h
      have hm := h m (List.mem_cons_self _ _)
      have hrec := ih (fun m' hm' => h m' (List.mem_cons_of_mem _ hm'))
      simp [attachStratum, hm, hrec]

theorem attachStratum_of_first_match (qPath sPath mid : String) (st : Stratum) :
    ∀ (pre : List Measure) (m : Measure) (post : List Measure) (m' : Measure),
      (∀ x ∈ pre, isMatch x mid = false) → isMatch m mid = true →
      pushStratum m st = .ok m' →
      attachStratum qPath sPath mid st (pre ++ m :: post) = .ok (pre ++ m' :: post) := by
  intro pre
  induction pre with
  | nil =>
      intro m post m' _ hm hpush
      simp [attachStratum, hm, hpush]
  | cons x xs ih =>
      intro m post m' hpre hm hpush
      have hx := hpre x (List.mem_cons_self _ _)
      have hrec := ih m post m' (fun y hy => hpre y (List.mem_cons_of_mem _ hy)) hm hpush
      simp [attachStratum, hx, hrec]

/-- Claim C7: a strata row whose trimmed, non-empty foreign key (column
0) matches no measure's `measureId` makes the merger throw the
`TypeError` naming the offending key and both CSV paths — its message is
`'Measure id: <id> does not exist in <qualityPath> but does exist in
<strataPath>'` — and the whole merge run aborts with that error. -/
theorem unresolved_foreign_key_fails :
    ∀ (qPath sPath : String) (measures : List Measure) (row : List String)
      (c0 c1 c3 : String),
      row.get? 0 = some c0 → c0 ≠ "" →
      row.get? 1 = some c1 → row.get? 3 = some c3 →
      (∀ m ∈ measures, getKey m "measureId" ≠ some (JSValue.str (jsTrim c0))) →
      addStrataRow qPath sPath measures row =
        .error (.measureNotFound (jsTrim c0) qPath sPath)
      ∧ renderError (.measureNotFound (jsTrim c0) qPath sPath) =
          "Measure id: " ++ jsTrim c0 ++ " does not exist in " ++ qPath ++
            " but does exist in " ++ sPath
      ∧ ∀ rest, addMultiPerformanceRateStrata qPath sPath measures (row :: rest) =
          .error (.measureNotFound (jsTrim c0) qPath sPath) := by
  intro qPath sPath measures row c0 c1 c3 h0 hne h1 h3 hnom
  have hmatch : ∀ m ∈ measures, isMatch m (jsTrim c0) = false := by
    intro m hm
    simp only [isMatch]
    exact decide_eq_false (hnom m hm)
  have hrow : addStrataRow qPath sPath measures row =
      .error (.measureNotFound (jsTrim c0) qPath sPath) := by
    simp only [addStrataRow, h0, h1, h3, hne]
    exact attachStratum_of_no_match qPath sPath (jsTrim c0)
      ⟨jsTrim c1, jsTrim c3⟩ measures hmatch
  refine ⟨hrow, rfl, ?_⟩
  intro rest
  simp only [addMultiPerformanceRateStrata, hrow]

theorem unresolved_foreign_key_fails_witness :
    addStrataRow "quality.csv" "strata.csv" [[("measureId", JSValue.str "M2")]]
      ["M1", "S1", "x", "D1"] =
      .error (.measureNotFound "M1" "quality.csv" "strata.csv") := by
  have h := unresolved_foreign_key_fails "quality.csv" "strata.csv"
    [[("measureId", JSValue.str "M2")]] ["M1", "S1", "x", "D1"] "M1" "S1" "D1"
    rfl (by decide) rfl rfl (by decide)
  exact h.1

/-- Claim C8: the merger skips a strata row whose foreign-key cell is
absent or empty; otherwise it trims the foreign key (column 0), the
name (column 1) and the description (column 3) and appends
`{name, description}` to the strata list of the first measure whose
`measureId` equals the trimmed key, creating the list on the first
append — on the spec's example, primary `[{measureId:"M1"}]` with row
`["M1","Stratum 1","x","desc"]` yields
`[{measureId:"M1", strata:[{name:"Stratum 1", description:"desc"}]}]`. -/
theorem strata_merger_appends :
    ∀ (qPath sPath : String) (row : List String) (c0 c1 c3 : String)
      (pre : List Measure) (m : Measure) (post : List Measure) (xs : List Stratum),
      (∀ measures, (row.get? 0 = none ∨ row.get? 0 = some "") →
        addStrataRow qPath sPath measures row = .ok measures)
      ∧ (row.get? 0 = some c0 → c0 ≠ "" →
         row.get? 1 = some c1 → row.get? 3 = some c3 →
         (∀ x ∈ pre, isMatch x (jsTrim c0) = false) →
         isMatch m (jsTrim c0) = true →
         (getKey m "strata" = none ∧ xs = [] ∨
            getKey m "strata" = some (JSValue.strata xs)) →
         addStrataRow qPath sPath (pre ++ m :: post) row =
           .ok (pre ++ setKey m "strata"
             (JSValue.strata (xs ++ [⟨jsTrim c1, jsTrim c3⟩])) :: post))
      ∧ addMultiPerformanceRateStrata qPath sPath
          [[("measureId", JSValue.str "M1")]] [["M1", "Stratum 1", "x", "desc"]] =
          .ok [[("measureId", JSValue.str "M1"),
                ("strata", JSValue.strata [⟨"Stratum 1", "desc"⟩])]] := by
  intro qPath sPath row c0 c1 c3 pre m post xs
  refine ⟨?_, ?_, ?_⟩
  · intro measures h
    rcases h with h | h
    · simp only [addStrataRow]
      rw [h]
    · simp only [addStrataRow]
      rw [h]
      rfl
  · intro h0 hne h1 h3 hpre hm hstrata
    have hpush : pushStratum m ⟨jsTrim c1, jsTrim c3⟩ =
        .ok (setKey m "strata" (JSValue.strata (xs ++ [⟨jsTrim c1, jsTrim c3⟩]))) := by
      rcases hstrata with ⟨hgk, rfl⟩ | hgk
      · simp only [pushStratum, hgk, List.nil_append]
      · simp only [pushStratum, hgk]
    simp only [addStrataRow, h0, h1, h3, hne]
    exact attachStratum_of_first_match qPath sPath (jsTrim c0)
      ⟨jsTrim c1, jsTrim c3⟩ pre m post _ hpre hm hpush
  · rfl

theorem strata_merger_appends_witness :
    addStrataRow "q.csv" "s.csv" [[("measureId", JSValue.str "M1")]]
      ["M1", "Stratum 1", "x", "desc"] =
      .ok [[("measureId", JSValue.str "M1"),
            ("strata", JSValue.strata [⟨"Stratum 1", "desc"⟩])]] := by
  have h := (strata_merger_appends "q.csv" "s.csv" ["M1", "Stratum 1", "x", "desc"]
    "M1" "Stratum 1" "desc" [] [("measureId", JSValue.str "M1")] [] []).2.1
    rfl (by decide) rfl rfl (by decide) (by decide) (Or.inl ⟨by decide, rfl⟩)
  exact h
